import Mathlib

/-!
Verification of the JobFlow mobile client core: the authenticated API client
(mobile/lib/api.ts), the token store (mobile/lib/token.ts, mobile/lib/auth.ts),
the configuration resolution (mobile/lib/config.ts) and the CSV export helper
(csvEscape). Each definition is a shallow embedding of the corresponding
TypeScript source; platform primitives (JSON.parse, JSON.stringify, String()
coercion, expo-secure-store, encodeURIComponent) are modelled explicitly, with
the modelled fragment noted where it is a strict subset of the platform.
-/

/-- JSON values as produced by a successful JSON.parse: null, booleans,
numbers (the modelled fragment has integer numerals only; fractional and
exponent literals are outside the fragment the claims exercise), strings,
arrays and objects (field lists in textual order, duplicates kept). -/
inductive Json where
  | null : Json
  | bool (b : Bool) : Json
  | num (n : Int) : Json
  | str (s : String) : Json
  | arr (elems : List Json) : Json
  | obj (fields : List (String × Json)) : Json

/-- JavaScript Array.prototype.join with separator a comma. -/
def joinComma : List String → String
  | [] => ""
  | [x] => x
  | x :: y :: rest => x ++ "," ++ joinComma (y :: rest)

/-- JavaScript truthiness of a JSON value: null, false, 0 and the empty
string are falsy; every array and object is truthy. -/
def Json.truthy : Json → Bool
  | .null => false
  | .bool b => b
  | .num n => n != 0
  | .str s => s != ""
  | .arr _ => true
  | .obj _ => true

/-- Property lookup on a JS object built by JSON.parse: the last occurrence
of a duplicated key wins; reading a property of a non-object (or a missing
key) gives undefined, modelled as none. -/
def lookupLast : List (String × Json) → String → Option Json
  | [], _ => none
  | (k', v) :: rest, k =>
    match lookupLast rest k with
    | some r => some r
    | none => if k' = k then some v else none

/-- data.k for a JS value data: some v when data is an object carrying k,
none (undefined) otherwise. -/
def Json.get : Json → String → Option Json
  | .obj fields, k => lookupLast fields k
  | _, _ => none

mutual
/-- JavaScript String(v) coercion of a JSON value: strings unchanged,
numbers and booleans printed, null printed as the word null, arrays joined
by commas with null elements blank, plain objects printed as
the fixed object placeholder text. -/
def Json.coerce : Json → String
  | .null => "null"
  | .bool b => if b then "true" else "false"
  | .num n => toString n
  | .str s => s
  | .arr xs => joinComma (coerceElems xs)
  | .obj _ => "[object Object]"

/-- Element-wise String() coercion inside an array: null elements become
the empty string (JS join semantics). -/
def coerceElems : List Json → List String
  | [] => []
  | x :: xs =>
    (match x with
     | Json.null => ""
     | y => Json.coerce y) :: coerceElems xs
end

/-- One character of JSON.stringify string escaping. -/
def escapeJsonChar (c : Char) : List Char :=
  if c = '"' then ['\\', '"']
  else if c = '\\' then ['\\', '\\']
  else if c = '\n' then ['\\', 'n']
  else if c = '\r' then ['\\', 'r']
  else if c = '\t' then ['\\', 't']
  else if c = Char.ofNat 8 then ['\\', 'b']
  else if c = Char.ofNat 12 then ['\\', 'f']
  else if c.toNat < 32 then
    ['\\', 'u', '0', '0',
     Char.ofNat (if c.toNat / 16 < 10 then 48 + c.toNat / 16 else 87 + c.toNat / 16),
     Char.ofNat (if c.toNat % 16 < 10 then 48 + c.toNat % 16 else 87 + c.toNat % 16)]
  else [c]

/-- JSON.stringify escaping of the characters of a string body. -/
def escapeJsonString (s : String) : String :=
  String.mk (s.data.flatMap escapeJsonChar)

mutual
/-- JSON.stringify of a JSON value (compact form, as the fetch body
serialization in the source produces). -/
def Json.stringify : Json → String
  | .null => "null"
  | .bool b => if b then "true" else "false"
  | .num n => toString n
  | .str s => "\"" ++ escapeJsonString s ++ "\""
  | .arr xs => "[" ++ joinComma (stringifyElems xs) ++ "]"
  | .obj fs => "\x7b" ++ joinComma (stringifyFields fs) ++ "\x7d"

/-- JSON.stringify of the elements of an array. -/
def stringifyElems : List Json → List String
  | [] => []
  | x :: xs => Json.stringify x :: stringifyElems xs

/-- JSON.stringify of the members of an object. -/
def stringifyFields : List (String × Json) → List String
  | [] => []
  | (k, v) :: fs =>
    ("\"" ++ escapeJsonString k ++ "\":" ++ Json.stringify v) :: stringifyFields fs
end

/-- Opening brace character of JSON object syntax. -/
def objOpen : Char := Char.ofNat 123

/-- Closing brace character of JSON object syntax. -/
def objClose : Char := Char.ofNat 125

/-- Skip JSON insignificant whitespace. -/
def skipWs : List Char → List Char
  | c :: cs =>
    if c = ' ' || c = '\t' || c = '\n' || c = '\r' then skipWs cs else c :: cs
  | [] => []

/-- Value of a hexadecimal digit, none for other characters. -/
def hexVal (c : Char) : Option Nat :=
  if '0' ≤ c && c ≤ '9' then some (c.toNat - 48)
  else if 'a' ≤ c && c ≤ 'f' then some (c.toNat - 87)
  else if 'A' ≤ c && c ≤ 'F' then some (c.toNat - 55)
  else none

/-- Map of single-character JSON string escapes. -/
def escMap (c : Char) : Option Char :=
  if c = '"' then some '"'
  else if c = '\\' then some '\\'
  else if c = '/' then some '/'
  else if c = 'n' then some '\n'
  else if c = 't' then some '\t'
  else if c = 'r' then some '\r'
  else if c = 'b' then some (Char.ofNat 8)
  else if c = 'f' then some (Char.ofNat 12)
  else none

/-- Parse the remainder of a JSON string literal after the opening quote,
accumulating decoded characters in reverse; unescaped control characters
are invalid. Surrogate-pair recombination is outside the modelled
fragment. -/
def parseStringRest (acc : List Char) : List Char → Option (String × List Char)
  | '"' :: rest => some (String.mk acc.reverse, rest)
  | '\\' :: 'u' :: a :: b :: c :: d :: rest =>
    match hexVal a, hexVal b, hexVal c, hexVal d with
    | some x, some y, some z, some w =>
      parseStringRest (Char.ofNat (((x * 16 + y) * 16 + z) * 16 + w) :: acc) rest
    | _, _, _, _ => none
  | '\\' :: e :: rest =>
    match escMap e with
    | some ec => parseStringRest (ec :: acc) rest
    | none => none
  | c :: rest =>
    if c.toNat < 32 then none else parseStringRest (c :: acc) rest
  | [] => none

/-- Consume a run of decimal digits, extending an accumulated value. -/
def parseDigitsAcc (acc : Nat) : List Char → Nat × List Char
  | c :: cs =>
    if c.isDigit then parseDigitsAcc (acc * 10 + (c.toNat - 48)) cs else (acc, c :: cs)
  | [] => (acc, [])

/-- Consume one or more decimal digits, none when the input has no leading
digit. -/
def parseDigitsOpt : List Char → Option (Nat × List Char)
  | c :: cs =>
    if c.isDigit then some (parseDigitsAcc (c.toNat - 48) cs) else none
  | [] => none

/-- True when what follows a digit run would continue a fractional or
exponent numeral; such numerals are outside the modelled integer
fragment and are treated as unparseable. -/
def numeralContinues : List Char → Bool
  | c :: _ => c = '.' || c = 'e' || c = 'E'
  | [] => false

/-- Parse a JSON numeral of the modelled integer fragment. -/
def parseNumber (cs : List Char) : Option (Json × List Char) :=
  match cs with
  | '-' :: rest =>
    match parseDigitsOpt rest with
    | some (n, rest') =>
      if numeralContinues rest' then none else some (Json.num (-(n : Int)), rest')
    | none => none
  | _ =>
    match parseDigitsOpt cs with
    | some (n, rest') =>
      if numeralContinues rest' then none else some (Json.num (n : Int), rest')
    | none => none

mutual
/-- Parse one JSON value, fuel-indexed; fuel only bounds recursion depth
and is always supplied large enough for the whole input. -/
def parseValue : Nat → List Char → Option (Json × List Char)
  | 0, _ => none
  | Nat.succ fuel, cs =>
    match skipWs cs with
    | 'n' :: 'u' :: 'l' :: 'l' :: rest => some (Json.null, rest)
    | 't' :: 'r' :: 'u' :: 'e' :: rest => some (Json.bool true, rest)
    | 'f' :: 'a' :: 'l' :: 's' :: 'e' :: rest => some (Json.bool false, rest)
    | '"' :: rest =>
      match parseStringRest [] rest with
      | some (s, rest') => some (Json.str s, rest')
      | none => none
    | '[' :: rest =>
      match skipWs rest with
      | ']' :: rest2 => some (Json.arr [], rest2)
      | rest1 =>
        match parseElems fuel rest1 with
        | some (vs, rest2) => some (Json.arr vs, rest2)
        | none => none
    | c :: rest =>
      if c = objOpen then
        match skipWs rest with
        | d :: rest2 =>
          if d = objClose then some (Json.obj [], rest2)
          else
            match parseMembers fuel (d :: rest2) with
            | some (fs, rest3) => some (Json.obj fs, rest3)
            | none => none
        | [] => none
      else if c.isDigit || c = '-' then parseNumber (c :: rest)
      else none
    | [] => none

/-- Parse the comma-separated elements of a non-empty JSON array together
with the closing bracket. -/
def parseElems : Nat → List Char → Option (List Json × List Char)
  | 0, _ => none
  | Nat.succ fuel, cs =>
    match parseValue fuel cs with
    | some (v, rest) =>
      match skipWs rest with
      | ',' :: rest2 =>
        match parseElems fuel rest2 with
        | some (vs, rest3) => some (v :: vs, rest3)
        | none => none
      | ']' :: rest2 => some ([v], rest2)
      | _ => none
    | none => none

/-- Parse the comma-separated members of a non-empty JSON object together
with the closing brace. -/
def parseMembers : Nat → List Char → Option (List (String × Json) × List Char)
  | 0, _ => none
  | Nat.succ fuel, cs =>
    match skipWs cs with
    | '"' :: rest =>
      match parseStringRest [] rest with
      | some (k, rest1) =>
        match skipWs rest1 with
        | ':' :: rest2 =>
          match parseValue fuel rest2 with
          | some (v, rest3) =>
            match skipWs rest3 with
            | ',' :: rest4 =>
              match parseMembers fuel rest4 with
              | some (fs, rest5) => some ((k, v) :: fs, rest5)
              | none => none
            | c :: rest4 =>
              if c = objClose then some ([(k, v)], rest4) else none
            | [] => none
          | none => none
        | _ => none
      | none => none
    | _ => none
end

/-- JSON.parse on a whole string: a single value with only whitespace
after it; anything else is a parse failure (which the caller catches). -/
def jsonParse (s : String) : Option Json :=
  match parseValue (2 * s.length + 4) s.data with
  | some (v, rest) => if (skipWs rest).isEmpty then some v else none
  | none => none

/-- First value bound to a key in an association list. -/
def lookupKV {α : Type} (k : String) : List (String × α) → Option α
  | [] => none
  | (k', v) :: rest => if k' = k then some v else lookupKV k rest

/-- State of the device secure store (expo-secure-store): the stored
key/value entries together with a schedule of injected faults, one consumed
per primitive operation; a true entry makes that operation reject. The
schedule makes storage failure explicit so the try/catch structure of the
source can be checked. -/
structure SS where
  items : List (String × String)
  faults : List Bool
deriving DecidableEq

/-- Consume the next fault-schedule entry (no fault when exhausted). -/
def popFault (s : SS) : Bool × SS :=
  match s.faults with
  | b :: rest => (b, { s with faults := rest })
  | [] => (false, s)

/-- SecureStore.getItemAsync: resolves with the stored value or null, or
rejects when the storage layer fails. -/
def ssGet (key : String) (s : SS) : Except Unit (Option String) × SS :=
  let (b, s') := popFault s
  if b then (Except.error (), s') else (Except.ok (lookupKV key s'.items), s')

/-- Entries of an association list with every binding of one key removed. -/
def removeKey {α : Type} (k : String) : List (String × α) → List (String × α)
  | [] => []
  | (k', v) :: rest => if k' = k then removeKey k rest else (k', v) :: removeKey k rest

/-- SecureStore.setItemAsync: stores the value under the key, or rejects
when the storage layer fails (leaving the entries unchanged). -/
def ssSet (key val : String) (s : SS) : Except Unit Unit × SS :=
  let (b, s') := popFault s
  if b then (Except.error (), s')
  else (Except.ok (), { s' with items := (key, val) :: removeKey key s'.items })

/-- SecureStore.deleteItemAsync: removes the key, or rejects when the
storage layer fails. -/
def ssDelete (key : String) (s : SS) : Except Unit Unit × SS :=
  let (b, s') := popFault s
  if b then (Except.error (), s')
  else (Except.ok (), { s' with items := removeKey key s'.items })

/-- Key of the stored bearer token (mobile/lib/token.ts). -/
def TOKEN_KEY : String := "jobflow_access_token"

/-- Key of the stored user id (mobile/lib/auth.ts). -/
def USER_ID_KEY : String := "jobflow_user_id"

/-- getToken of mobile/lib/token.ts: read the token, a storage failure is
caught and degrades to null. -/
def getToken (s : SS) : Option String × SS :=
  match ssGet TOKEN_KEY s with
  | (Except.ok t, s') => (t, s')
  | (Except.error _, s') => (none, s')

/-- setToken of mobile/lib/token.ts: storing a falsy (empty) token returns
before touching the store; a storage failure is caught and ignored. -/
def setToken (token : String) (s : SS) : SS :=
  if token = "" then s
  else
    match ssSet TOKEN_KEY token s with
    | (_, s') => s'

/-- clearToken of mobile/lib/token.ts: delete the token key; a storage
failure is caught and ignored. -/
def clearToken (s : SS) : SS :=
  match ssDelete TOKEN_KEY s with
  | (_, s') => s'

/-- A JavaScript number as far as this client observes it: an integer or
the not-a-number value that Number() yields on a non-numeric string. -/
inductive JsNumber where
  | nan : JsNumber
  | val (n : Int) : JsNumber
deriving DecidableEq

/-- Number(v) on a non-empty string of the modelled fragment: an optional
sign followed by digits; anything else (including fractional forms, which
no stored user id exercises) is not-a-number. -/
def jsStringToNumber (v : String) : JsNumber :=
  match v.data with
  | '-' :: rest =>
    match parseDigitsOpt rest with
    | some (n, []) => JsNumber.val (-(n : Int))
    | _ => JsNumber.nan
  | cs =>
    match parseDigitsOpt cs with
    | some (n, []) => JsNumber.val (n : Int)
    | _ => JsNumber.nan

/-- getUserId of mobile/lib/auth.ts: read the user-id key; null or the
empty string give null, any other value goes through Number(); a storage
failure is caught and degrades to null. -/
def getUserId (s : SS) : Option JsNumber × SS :=
  match ssGet USER_ID_KEY s with
  | (Except.ok v, s') =>
    match v with
    | some str => if str = "" then (none, s') else (some (jsStringToNumber str), s')
    | none => (none, s')
  | (Except.error _, s') => (none, s')

/-- setAuth of mobile/lib/auth.ts: setToken (which swallows its own
failures) followed by a bare SecureStore.setItemAsync of the user id with
no try/catch around it, so a failing user-id write rejects the whole
call. -/
def setAuth (token : String) (userId : Int) (s : SS) : Except Unit Unit × SS :=
  let s1 := setToken token s
  match ssSet USER_ID_KEY (toString userId) s1 with
  | (Except.ok _, s2) => (Except.ok (), s2)
  | (Except.error _, s2) => (Except.error (), s2)

/-- clearAuth of mobile/lib/auth.ts: clearToken, then delete the user-id
key inside try/catch, so it completes whatever fails. -/
def clearAuth (s : SS) : SS :=
  let s1 := clearToken s
  match ssDelete USER_ID_KEY s1 with
  | (_, s2) => s2

/-- The extra block of the Expo build-time configuration
(mobile/lib/config.ts): an optional apiBaseUrl entry. -/
structure ExpoExtra where
  apiBaseUrl : Option String
deriving DecidableEq

/-- The three places readExtra of mobile/lib/config.ts looks for the extra
block, each possibly absent. -/
structure ConstantsModel where
  expoConfigExtra : Option ExpoExtra
  manifestExtra : Option ExpoExtra
  manifest2Extra : Option ExpoExtra
deriving DecidableEq

/-- The process environment as far as config.ts reads it. -/
structure ProcessEnv where
  expoPublicApiBaseUrl : Option String
deriving DecidableEq

/-- readExtra of mobile/lib/config.ts: first non-nullish of
Constants.expoConfig.extra, manifest.extra, manifest2.extra, else an empty
object. -/
def readExtra (c : ConstantsModel) : ExpoExtra :=
  match c.expoConfigExtra with
  | some e => e
  | none =>
    match c.manifestExtra with
    | some e => e
    | none =>
      match c.manifest2Extra with
      | some e => e
      | none => ⟨none⟩

/-- The hard-coded fallback base URL of mobile/lib/config.ts. -/
def DEFAULT_API_BASE_URL : String := "https://jobflow-backend-bhvw.onrender.com"

/-- JavaScript a || b where a is an optional string: undefined and the
empty string are falsy. -/
def jsOrString (a : Option String) (b : String) : String :=
  match a with
  | some s => if s = "" then b else s
  | none => b

/-- API_BASE_URL of mobile/lib/config.ts: extra.apiBaseUrl, else
process.env.EXPO_PUBLIC_API_BASE_URL, else the hard-coded fallback. -/
def API_BASE_URL (c : ConstantsModel) (env : ProcessEnv) : String :=
  jsOrString (readExtra c).apiBaseUrl
    (jsOrString env.expoPublicApiBaseUrl DEFAULT_API_BASE_URL)

/-- getApiBaseUrl of mobile/lib/config.ts. -/
def getApiBaseUrl (c : ConstantsModel) (env : ProcessEnv) : String :=
  API_BASE_URL c env

/-- True for the characters encodeURIComponent leaves unescaped:
alphanumerics and the unreserved marks. -/
def isUnreservedURI (c : Char) : Bool :=
  ('A' ≤ c && c ≤ 'Z') || ('a' ≤ c && c ≤ 'z') || ('0' ≤ c && c ≤ '9') ||
  c = '-' || c = '_' || c = '.' || c = '!' || c = '~' || c = '*' ||
  c = Char.ofNat 39 || c = '(' || c = ')'

/-- Upper-case hexadecimal digit of a value below 16. -/
def hexDigitUpper (n : Nat) : Char :=
  if n < 10 then Char.ofNat (48 + n) else Char.ofNat (55 + n)

/-- UTF-8 bytes of one character. -/
def utf8Bytes (c : Char) : List Nat :=
  let n := c.toNat
  if n < 128 then [n]
  else if n < 2048 then [192 + n / 64, 128 + n % 64]
  else if n < 65536 then [224 + n / 4096, 128 + (n / 64) % 64, 128 + n % 64]
  else [240 + n / 262144, 128 + (n / 4096) % 64, 128 + (n / 64) % 64, 128 + n % 64]

/-- Percent-encoding of one character as encodeURIComponent escapes it. -/
def percentEncodeChar (c : Char) : List Char :=
  (utf8Bytes c).flatMap (fun b => ['%', hexDigitUpper (b / 16), hexDigitUpper (b % 16)])

/-- Character-level body of encodeURIComponent. -/
def encChars : List Char → List Char
  | [] => []
  | c :: cs => (if isUnreservedURI c then [c] else percentEncodeChar c) ++ encChars cs

/-- encodeURIComponent of the JavaScript platform. -/
def encodeURIComponent (s : String) : String :=
  String.mk (encChars s.data)

/-- The HTTP methods of mobile/lib/api.ts. -/
inductive HttpMethod where
  | GET : HttpMethod
  | POST : HttpMethod
  | PUT : HttpMethod
  | DELETE : HttpMethod
deriving DecidableEq

/-- The request fetch is given: url, method, header list in insertion
order, and an optional body string. -/
structure HttpRequest where
  url : String
  method : HttpMethod
  headers : List (String × String)
  body : Option String
deriving DecidableEq

/-- The response as request observes it: numeric status and body text. -/
structure HttpResponse where
  status : Nat
  body : String

/-- withJobId of mobile/lib/api.ts: null or undefined job id leaves the
path unchanged; otherwise append the job_id pair after a question mark, or
after an ampersand when the path already has a query string. -/
def withJobId (path : String) (jobId : Option Int) : String :=
  match jobId with
  | none => path
  | some id =>
    let join := if path.data.contains '?' then "&" else "?"
    path ++ join ++ "job_id=" ++ encodeURIComponent (toString id)

/-- The Response.ok predicate of fetch: status in the 2xx range. -/
def statusOk (status : Nat) : Bool :=
  200 ≤ status && status ≤ 299

/-- The request fetch sends, built as in request of mobile/lib/api.ts:
Content-Type always, Authorization only for a truthy (non-empty) token,
body serialized exactly when the body argument is defined. -/
def outgoingRequest (baseUrl path : String) (method : HttpMethod)
    (token : Option String) (body : Option Json) : HttpRequest :=
  { url := baseUrl ++ path
    method := method
    headers :=
      ("Content-Type", "application/json") ::
      (match token with
       | some t => if t = "" then [] else [("Authorization", "Bearer " ++ t)]
       | none => [])
    body := body.map Json.stringify }

/-- The parsed value request keeps for a non-401 response: null for an
empty body, the JSON.parse result when it succeeds, the raw text when the
parse throws. -/
def parseBody (text : String) : Json :=
  if text = "" then Json.null
  else
    match jsonParse text with
    | some j => j
    | none => Json.str text

/-- The error-message derivation of request for a failed response, the
JS expression (data and (data.detail or data.message)) or (data when it is
a string) or the synthesized status text, with JS truthiness throughout;
the chosen value is coerced by the Error constructor. -/
def errMsg (data : Json) (status : Nat) : String :=
  let detailOrMessage : Option Json :=
    match data.get "detail" with
    | some d => if d.truthy then some d else data.get "message"
    | none => data.get "message"
  let step1 : Option Json := if data.truthy then detailOrMessage else some data
  let step2 : String :=
    match data with
    | Json.str s => s
    | _ => ""
  match step1 with
  | some v =>
    if v.truthy then v.coerce
    else if step2 ≠ "" then step2
    else "Request failed (" ++ toString status ++ ")"
  | none =>
    if step2 ≠ "" then step2
    else "Request failed (" ++ toString status ++ ")"

/-- The failures request surfaces, by throw site: the 401 session-expiry
throw and the generic non-2xx throw, each carrying its message. -/
inductive ApiError where
  | sessionExpired (msg : String) : ApiError
  | requestFailed (msg : String) : ApiError
deriving DecidableEq

/-- request of mobile/lib/api.ts: read the token, send the request through
the transport, clear the token and fail on a 401 before touching the body,
otherwise read and best-effort-parse the body, fail with the derived
message outside the 2xx range, and return the parsed value on success. -/
def request (baseUrl path : String) (method : HttpMethod) (body : Option Json)
    (transport : HttpRequest → HttpResponse) (s : SS) : Except ApiError Json × SS :=
  let tokenRead := getToken s
  let res := transport (outgoingRequest baseUrl path method tokenRead.1 body)
  if res.status = 401 then
    (Except.error (ApiError.sessionExpired "Session expired. Please log in again."),
     clearToken tokenRead.2)
  else
    let data := parseBody res.body
    if statusOk res.status then (Except.ok data, tokenRead.2)
    else (Except.error (ApiError.requestFailed (errMsg data res.status)), tokenRead.2)

/-- True for the characters whose presence makes csvEscape quote the
cell: double quote, comma, newline, carriage return (the character class
of its regular expression). -/
def isCsvSpecial (c : Char) : Bool :=
  c = '"' || c = ',' || c = '\n' || c = '\r'

/-- Character-level effect of the global replace of each double quote by
two double quotes. -/
def doubleQuotes : List Char → List Char
  | [] => []
  | c :: cs => (if c = '"' then ['"', '"'] else [c]) ++ doubleQuotes cs

/-- csvEscape of the export screen: String(v with nullish coalescing to
the empty string), wrapped in double quotes with internal quotes doubled
when the string contains a quote, comma or line break, unchanged
otherwise. -/
def csvEscape (v : Option Json) : String :=
  let s : String :=
    match v with
    | none => ""
    | some Json.null => ""
    | some j => j.coerce
  if s.data.any isCsvSpecial then
    String.mk ('"' :: doubleQuotes s.data ++ ['"'])
  else s

/-- csvEscape applied to a string cell. -/
def csvEscapeStr (s : String) : String :=
  csvEscape (some (Json.str s))

/-- One escaped cell at character level. -/
def escTok (f : List Char) : List Char :=
  if f.any isCsvSpecial then '"' :: doubleQuotes f ++ ['"'] else f

/-- Claim-side CSV reader for one record: split on commas outside double
quotes, a doubled quote inside a quoted run being a literal quote. This
follows the round-trip sentence of the claim, not any source function. -/
def csvGo : List Char → Bool → List Char → List (List Char)
  | [], _, cur => [cur.reverse]
  | c :: rest, true, cur =>
    if c = '"' then
      match rest with
      | d :: rest' =>
        if d = '"' then csvGo rest' true ('"' :: cur) else csvGo (d :: rest') false cur
      | [] => csvGo [] false cur
    else csvGo rest true (c :: cur)
  | c :: rest, false, cur =>
    if c = '"' then csvGo rest true cur
    else if c = ',' then cur.reverse :: csvGo rest false []
    else csvGo rest false (c :: cur)

/-- Claim-side CSV reader at string level. -/
def splitCsvLine (s : String) : List String :=
  (csvGo s.data false []).map (fun cs => String.mk cs)

/-! Helper lemmas. -/

theorem encChars_of_unreserved :
    ∀ l : List Char, (∀ c ∈ l, isUnreservedURI c = true) → encChars l = l := by
  intro l
  induction l with
  | nil => intro _; rfl
  | cons c cs ih =>
    intro h
    have hc : isUnreservedURI c = true := h c (List.mem_cons_self c cs)
    have hcs := ih (fun d hd => h d (List.mem_cons_of_mem c hd))
    simp [encChars, hc, hcs]

theorem digitChar_unreserved : ∀ m, m < 10 → isUnreservedURI (Nat.digitChar m) = true := by
  decide

theorem toDigitsCore_unreserved :
    ∀ (fuel n : Nat) (ds : List Char), (∀ c ∈ ds, isUnreservedURI c = true) →
      ∀ c ∈ Nat.toDigitsCore 10 fuel n ds, isUnreservedURI c = true := by
  intro fuel
  induction fuel with
  | zero =>
    intro n ds h c hc
    exact h c hc
  | succ fuel ih =>
    intro n ds h c hc
    have hd : isUnreservedURI (Nat.digitChar (n % 10)) = true :=
      digitChar_unreserved _ (Nat.mod_lt _ (by decide))
    have hcons : ∀ d ∈ Nat.digitChar (n % 10) :: ds, isUnreservedURI d = true := by
      intro d hdm
      rcases List.mem_cons.mp hdm with h1 | h2
      · exact h1 ▸ hd
      · exact h d h2
    by_cases hz : n / 10 = 0
    · have : Nat.toDigitsCore 10 (fuel + 1) n ds = Nat.digitChar (n % 10) :: ds := by
        simp [Nat.toDigitsCore, hz]
      rw [this] at hc
      exact hcons c hc
    · have : Nat.toDigitsCore 10 (fuel + 1) n ds =
        Nat.toDigitsCore 10 fuel (n / 10) (Nat.digitChar (n % 10) :: ds) := by
        simp [Nat.toDigitsCore, hz]
      rw [this] at hc
      exact ih (n / 10) _ hcons c hc

theorem natRepr_unreserved (n : Nat) : ∀ c ∈ (Nat.repr n).data, isUnreservedURI c = true := by
  intro c hc
  exact toDigitsCore_unreserved (n + 1) n [] (by intro d hd; cases hd) c hc

theorem intToString_unreserved (i : Int) :
    ∀ c ∈ (toString i).data, isUnreservedURI c = true := by
  cases i with
  | ofNat m =>
    intro c hc
    exact natRepr_unreserved m c hc
  | negSucc m =>
    intro c hc
    have : (toString (Int.negSucc m)).data = '-' :: (Nat.repr (m + 1)).data := by
      show (("-" : String) ++ Nat.repr (m + 1)).data = _
      rw [String.data_append]
      rfl
    rw [this] at hc
    rcases List.mem_cons.mp hc with h1 | h2
    · rw [h1]; decide
    · exact natRepr_unreserved (m + 1) c h2

theorem encodeURIComponent_int (i : Int) : encodeURIComponent (toString i) = toString i := by
  show String.mk (encChars (toString i).data) = toString i
  rw [encChars_of_unreserved _ (intToString_unreserved i)]

/-- C5: withJobId returns the path unchanged for an absent job id; a
present id is appended as the sole query parameter after a question mark
when the path has none, and after an ampersand when it already has a
query string. -/
theorem withJobId_appends_job_filter (path : String) (id : Int) :
    withJobId path none = path ∧
    (path.data.contains '?' = false →
      withJobId path (some id) = path ++ "?job_id=" ++ toString id) ∧
    (path.data.contains '?' = true →
      withJobId path (some id) = path ++ "&job_id=" ++ toString id) := by
  refine ⟨rfl, ?_, ?_⟩
  · intro h
    show path ++ (if path.data.contains '?' then "&" else "?") ++ "job_id=" ++
      encodeURIComponent (toString id) = _
    rw [h, encodeURIComponent_int]
    rw [String.append_assoc, String.append_assoc]
    rw [String.append_assoc path "?job_id=" (toString id)]
    rfl
  · intro h
    show path ++ (if path.data.contains '?' then "&" else "?") ++ "job_id=" ++
      encodeURIComponent (toString id) = _
    rw [h, encodeURIComponent_int]
    rw [String.append_assoc, String.append_assoc]
    rw [String.append_assoc path "&job_id=" (toString id)]
    rfl

/-- C5 witness: the two concrete examples of the claim, obtained from the
theorem at the inputs it names. -/
theorem withJobId_appends_job_filter_witness :
    withJobId "/invoices" (some 7) = "/invoices?job_id=7" ∧
    withJobId "/invoices?x=1" (some 7) = "/invoices?x=1&job_id=7" ∧
    withJobId "/invoices" none = "/invoices" := by
  refine ⟨?_, ?_, (withJobId_appends_job_filter "/invoices" 7).1⟩
  · rw [(withJobId_appends_job_filter "/invoices" 7).2.1 (by decide)]
    rfl
  · rw [(withJobId_appends_job_filter "/invoices?x=1" 7).2.2 (by decide)]
    rfl

theorem lookupKV_removeKey {α : Type} (k : String) :
    ∀ items : List (String × α), lookupKV k (removeKey k items) = none := by
  intro items
  induction items with
  | nil => rfl
  | cons p rest ih =>
    by_cases h : p.1 = k
    · simp [removeKey, h, ih]
    · simp [removeKey, h, lookupKV, ih]

/-- C3: in the request fetch sends, the Authorization header is exactly
the bearer form of a stored non-empty token, it is absent entirely for an
absent or empty stored token, and Content-Type is always
application/json. -/
theorem request_bearer_header (baseUrl path : String) (method : HttpMethod)
    (body : Option Json) (s : SS) :
    (∀ t, (getToken s).1 = some t → t ≠ "" →
      lookupKV "Authorization"
        (outgoingRequest baseUrl path method (getToken s).1 body).headers =
        some ("Bearer " ++ t)) ∧
    (((getToken s).1 = none ∨ (getToken s).1 = some "") →
      lookupKV "Authorization"
        (outgoingRequest baseUrl path method (getToken s).1 body).headers = none) ∧
    lookupKV "Content-Type"
      (outgoingRequest baseUrl path method (getToken s).1 body).headers =
      some "application/json" := by
  refine ⟨?_, ?_, ?_⟩
  · intro t ht hne
    rw [ht]
    simp [outgoingRequest, lookupKV, hne]
  · intro h
    rcases h with h | h <;> rw [h] <;> simp [outgoingRequest, lookupKV]
  · cases htok : (getToken s).1 with
    | none => simp [outgoingRequest, lookupKV]
    | some t =>
      by_cases hne : t = "" <;> simp [outgoingRequest, lookupKV, hne]

/-- C3 witness: concrete stores with a present and with an absent token,
through the theorem itself. -/
theorem request_bearer_header_witness :
    lookupKV "Authorization"
      (outgoingRequest "http://b" "/jobs" HttpMethod.GET
        (getToken ⟨[(TOKEN_KEY, "abc")], []⟩).1 none).headers = some "Bearer abc" ∧
    lookupKV "Authorization"
      (outgoingRequest "http://b" "/jobs" HttpMethod.GET
        (getToken ⟨[], []⟩).1 none).headers = none ∧
    lookupKV "Content-Type"
      (outgoingRequest "http://b" "/jobs" HttpMethod.GET
        (getToken ⟨[], []⟩).1 none).headers = some "application/json" :=
  ⟨(request_bearer_header "http://b" "/jobs" HttpMethod.GET none
      ⟨[(TOKEN_KEY, "abc")], []⟩).1 "abc" rfl (by decide),
   (request_bearer_header "http://b" "/jobs" HttpMethod.GET none ⟨[], []⟩).2.1 (Or.inl rfl),
   (request_bearer_header "http://b" "/jobs" HttpMethod.GET none ⟨[], []⟩).2.2⟩

/-- C7: an omitted body argument transmits no request body at all, and a
defined body argument transmits exactly its JSON serialization. -/
theorem request_body_serialization (baseUrl path : String) (method : HttpMethod)
    (token : Option String) (v : Json) :
    (outgoingRequest baseUrl path method token none).body = none ∧
    (outgoingRequest baseUrl path method token (some v)).body = some (Json.stringify v) :=
  ⟨rfl, rfl⟩

/-- C6: storing an empty token is a no-op on the store state, so a
previously stored token is still what getToken returns afterwards. -/
theorem setToken_empty_is_noop (s : SS) (t : String) (h : (getToken s).1 = some t) :
    setToken "" s = s ∧ (getToken (setToken "" s)).1 = some t :=
  ⟨rfl, h⟩

/-- C6 witness: after setToken abc, a setToken of the empty string leaves
getToken returning abc, via the theorem at that store. -/
theorem setToken_empty_is_noop_witness :
    (getToken (setToken "abc" ⟨[], []⟩)).1 = some "abc" ∧
    (getToken (setToken "" (setToken "abc" ⟨[], []⟩))).1 = some "abc" :=
  ⟨rfl, (setToken_empty_is_noop (setToken "abc" ⟨[], []⟩) "abc" rfl).2⟩

/-- C1: a 401 response makes request fail with the session-expired error
and a cleared token store, with a result that does not depend on the
response body in any way (the right-hand side mentions nothing of the
response but its status); with an intact fault schedule the token entry is
gone afterwards. -/
theorem request_401_clears_token (baseUrl path : String) (method : HttpMethod)
    (body : Option Json) (tr : HttpRequest → HttpResponse) (s : SS)
    (h : (tr (outgoingRequest baseUrl path method (getToken s).1 body)).status = 401) :
    request baseUrl path method body tr s =
      (Except.error (ApiError.sessionExpired "Session expired. Please log in again."),
       clearToken (getToken s).2) ∧
    (s.faults = [] →
      lookupKV TOKEN_KEY (request baseUrl path method body tr s).2.items = none) := by
  have hmain : request baseUrl path method body tr s =
      (Except.error (ApiError.sessionExpired "Session expired. Please log in again."),
       clearToken (getToken s).2) := by
    simp [request, h]
  refine ⟨hmain, ?_⟩
  intro hf
  rw [hmain]
  cases s with
  | mk items faults =>
    subst hf
    simp [getToken, ssGet, popFault, clearToken, ssDelete]
    exact lookupKV_removeKey TOKEN_KEY items

/-- C1 witness: a concrete 401 response with a non-empty body against a
store holding a token, through the theorem itself. -/
theorem request_401_clears_token_witness :
    request "http://b" "/jobs" HttpMethod.GET none (fun _ => ⟨401, "nonsense body"⟩)
        ⟨[(TOKEN_KEY, "abc")], []⟩ =
      (Except.error (ApiError.sessionExpired "Session expired. Please log in again."),
       clearToken (getToken ⟨[(TOKEN_KEY, "abc")], []⟩).2) ∧
    lookupKV TOKEN_KEY
      (request "http://b" "/jobs" HttpMethod.GET none (fun _ => ⟨401, "nonsense body"⟩)
        ⟨[(TOKEN_KEY, "abc")], []⟩).2.items = none :=
  ⟨(request_401_clears_token "http://b" "/jobs" HttpMethod.GET none
      (fun _ => ⟨401, "nonsense body"⟩) ⟨[(TOKEN_KEY, "abc")], []⟩ rfl).1,
   (request_401_clears_token "http://b" "/jobs" HttpMethod.GET none
      (fun _ => ⟨401, "nonsense body"⟩) ⟨[(TOKEN_KEY, "abc")], []⟩ rfl).2 rfl⟩

/-- C9 counterexample: with no build-time apiBaseUrl configured, the
resolved base URL is not independent of the process environment — setting
the environment variable changes it away from the hard-coded fallback. -/
theorem apiBaseUrl_depends_on_process_env :
    API_BASE_URL ⟨none, none, none⟩ ⟨some "http://localhost:8000"⟩ = "http://localhost:8000" ∧
    API_BASE_URL ⟨none, none, none⟩ ⟨none⟩ = DEFAULT_API_BASE_URL ∧
    "http://localhost:8000" ≠ DEFAULT_API_BASE_URL :=
  ⟨rfl, rfl, by decide⟩

/-- C9 amended: the base URL resolves from the build-time configuration
first, then the EXPO_PUBLIC_API_BASE_URL process environment variable,
then the hard-coded fallback; only with neither of the first two set (or
set empty) is the result exactly the fallback. -/
theorem apiBaseUrl_resolution (c : ConstantsModel) (env : ProcessEnv) :
    (∀ u, (readExtra c).apiBaseUrl = some u → u ≠ "" → API_BASE_URL c env = u) ∧
    (((readExtra c).apiBaseUrl = none ∨ (readExtra c).apiBaseUrl = some "") →
      (∀ u, env.expoPublicApiBaseUrl = some u → u ≠ "" → API_BASE_URL c env = u) ∧
      ((env.expoPublicApiBaseUrl = none ∨ env.expoPublicApiBaseUrl = some "") →
        API_BASE_URL c env = DEFAULT_API_BASE_URL)) := by
  refine ⟨?_, ?_⟩
  · intro u hu hne
    simp [API_BASE_URL, jsOrString, hu, hne]
  · intro hextra
    refine ⟨?_, ?_⟩
    · intro u hu hne
      rcases hextra with h | h <;>
        simp [API_BASE_URL, jsOrString, h, hu, hne]
    · intro henv
      rcases hextra with h | h <;> rcases henv with h2 | h2 <;>
        simp [API_BASE_URL, jsOrString, h, h2]

/-- C9 amended witness: the three resolution outcomes at concrete
configurations, through the theorem itself. -/
theorem apiBaseUrl_resolution_witness :
    API_BASE_URL ⟨some ⟨some "http://extra"⟩, none, none⟩ ⟨some "http://env"⟩ = "http://extra" ∧
    API_BASE_URL ⟨none, none, none⟩ ⟨some "http://env"⟩ = "http://env" ∧
    API_BASE_URL ⟨none, none, none⟩ ⟨none⟩ = DEFAULT_API_BASE_URL :=
  ⟨(apiBaseUrl_resolution ⟨some ⟨some "http://extra"⟩, none, none⟩ ⟨some "http://env"⟩).1
      "http://extra" rfl (by decide),
   ((apiBaseUrl_resolution ⟨none, none, none⟩ ⟨some "http://env"⟩).2 (Or.inl rfl)).1
      "http://env" rfl (by decide),
   ((apiBaseUrl_resolution ⟨none, none, none⟩ ⟨none⟩).2 (Or.inl rfl)).2 (Or.inl rfl)⟩

/-- C2 counterexample: a 500 response whose JSON body carries a present
detail field holding the empty string; the claim requires the error
message to be exactly that detail value, but request synthesizes the
status text instead (JS truthiness skips a falsy detail). -/
theorem errMsg_ignores_falsy_detail :
    jsonParse "\x7b\"detail\": \"\"\x7d" = some (Json.obj [("detail", Json.str "")]) ∧
    request "http://b" "/x" HttpMethod.GET none (fun _ => ⟨500, "\x7b\"detail\": \"\"\x7d"⟩)
        ⟨[], []⟩ =
      (Except.error (ApiError.requestFailed "Request failed (500)"), ⟨[], []⟩) ∧
    ("Request failed (500)" : String) ≠ "" :=
  ⟨rfl, rfl, by decide⟩

theorem Json.truthy_str (s : String) : (Json.str s).truthy = (s != "") := rfl

theorem Json.truthy_obj (fields : List (String × Json)) : (Json.obj fields).truthy = true := rfl

theorem Json.coerce_str (s : String) : (Json.str s).coerce = s := rfl

theorem Json.truthy_of_get {j : Json} {k : String} {v : Json} (h : j.get k = some v) :
    j.truthy = true := by
  cases j <;> simp_all [Json.get, Json.truthy]

theorem errMsg_truthy_detail (data : Json) (st : Nat) (d : String)
    (hd : data.get "detail" = some (Json.str d)) (hne : d ≠ "") :
    errMsg data st = d := by
  cases data <;> simp [Json.get] at hd
  case obj fields =>
    simp [errMsg, Json.get, hd, Json.truthy, Json.coerce, hne]

theorem errMsg_truthy_message (data : Json) (st : Nat) (m : String)
    (hd : ∀ v, data.get "detail" = some v → v.truthy = false)
    (hm : data.get "message" = some (Json.str m)) (hne : m ≠ "") :
    errMsg data st = m := by
  cases data <;> simp [Json.get] at hm hd
  case obj fields =>
    cases hdet : lookupLast fields "detail" with
    | none => simp [errMsg, Json.get, hdet, hm, Json.truthy, Json.coerce, hne]
    | some v =>
      have hv := hd v hdet
      simp [errMsg, Json.get, hdet, hv, hm, Json.truthy_str, Json.truthy_obj,
        Json.coerce_str, hne]

theorem errMsg_raw_string (st : Nat) (t : String) (hne : t ≠ "") :
    errMsg (Json.str t) st = t := by
  simp [errMsg, Json.get, Json.truthy, hne]

theorem errMsg_null (st : Nat) :
    errMsg Json.null st = "Request failed (" ++ toString st ++ ")" := by
  simp [errMsg, Json.get, Json.truthy]

theorem statusOk_ne_401 {st : Nat} (hok : statusOk st = true) : st ≠ 401 := by
  have := of_decide_eq_true (Bool.and_elim_right hok)
  omega

theorem request_non2xx_eq (baseUrl path : String) (method : HttpMethod)
    (body : Option Json) (tr : HttpRequest → HttpResponse) (s : SS) (st : Nat)
    (text : String)
    (hres : tr (outgoingRequest baseUrl path method (getToken s).1 body) = ⟨st, text⟩)
    (h401 : st ≠ 401) (hok : statusOk st = false) :
    request baseUrl path method body tr s =
      (Except.error (ApiError.requestFailed (errMsg (parseBody text) st)),
       (getToken s).2) := by
  simp [request, hres, h401, hok]

theorem request_2xx_eq (baseUrl path : String) (method : HttpMethod)
    (body : Option Json) (tr : HttpRequest → HttpResponse) (s : SS) (st : Nat)
    (text : String)
    (hres : tr (outgoingRequest baseUrl path method (getToken s).1 body) = ⟨st, text⟩)
    (hok : statusOk st = true) :
    request baseUrl path method body tr s = (Except.ok (parseBody text), (getToken s).2) := by
  simp [request, hres, statusOk_ne_401 hok, hok]

/-- C2 amended: for a non-2xx, non-401 response the error message is, in
priority order: the detail field of the parsed body when it is present
with a truthy (non-empty string) value; else the message field when
truthy; else the body text when it is not JSON-parseable (and non-empty);
else — in particular for an empty body — the synthesized status text.
A present but falsy (empty) detail or message is skipped, not used. -/
theorem request_error_message_priority (baseUrl path : String) (method : HttpMethod)
    (body : Option Json) (tr : HttpRequest → HttpResponse) (s : SS) (st : Nat)
    (text : String)
    (hres : tr (outgoingRequest baseUrl path method (getToken s).1 body) = ⟨st, text⟩)
    (h401 : st ≠ 401) (hok : statusOk st = false) :
    (∀ d : String, (parseBody text).get "detail" = some (Json.str d) → d ≠ "" →
      request baseUrl path method body tr s =
        (Except.error (ApiError.requestFailed d), (getToken s).2)) ∧
    ((∀ v, (parseBody text).get "detail" = some v → v.truthy = false) →
      ∀ m : String, (parseBody text).get "message" = some (Json.str m) → m ≠ "" →
      request baseUrl path method body tr s =
        (Except.error (ApiError.requestFailed m), (getToken s).2)) ∧
    (jsonParse text = none → text ≠ "" →
      request baseUrl path method body tr s =
        (Except.error (ApiError.requestFailed text), (getToken s).2)) ∧
    (text = "" →
      request baseUrl path method body tr s =
        (Except.error (ApiError.requestFailed ("Request failed (" ++ toString st ++ ")")),
         (getToken s).2)) := by
  have hmain := request_non2xx_eq baseUrl path method body tr s st text hres h401 hok
  refine ⟨?_, ?_, ?_, ?_⟩
  · intro d hd hne
    rw [hmain, errMsg_truthy_detail _ _ d hd hne]
  · intro hd m hm hne
    rw [hmain, errMsg_truthy_message _ _ m hd hm hne]
  · intro hparse hne
    have : parseBody text = Json.str text := by simp [parseBody, hne, hparse]
    rw [hmain, this, errMsg_raw_string _ _ hne]
  · intro hempty
    subst hempty
    have : parseBody "" = Json.null := rfl
    rw [hmain, this, errMsg_null]

/-- C2 amended witness: the four message sources at concrete responses,
each through the theorem itself. -/
theorem request_error_message_priority_witness :
    request "http://b" "/x" HttpMethod.GET none (fun _ => ⟨500, "\x7b\"detail\": \"boom\"\x7d"⟩)
        ⟨[], []⟩ =
      (Except.error (ApiError.requestFailed "boom"), ⟨[], []⟩) ∧
    request "http://b" "/x" HttpMethod.GET none (fun _ => ⟨500, "\x7b\"message\": \"msg\"\x7d"⟩)
        ⟨[], []⟩ =
      (Except.error (ApiError.requestFailed "msg"), ⟨[], []⟩) ∧
    request "http://b" "/x" HttpMethod.GET none (fun _ => ⟨500, "plain text"⟩) ⟨[], []⟩ =
      (Except.error (ApiError.requestFailed "plain text"), ⟨[], []⟩) ∧
    request "http://b" "/x" HttpMethod.GET none (fun _ => ⟨404, ""⟩) ⟨[], []⟩ =
      (Except.error (ApiError.requestFailed "Request failed (404)"), ⟨[], []⟩) := by
  refine ⟨?_, ?_, ?_, ?_⟩
  · exact (request_error_message_priority "http://b" "/x" HttpMethod.GET none
      (fun _ => ⟨500, "\x7b\"detail\": \"boom\"\x7d"⟩) ⟨[], []⟩ 500
      "\x7b\"detail\": \"boom\"\x7d" rfl (by decide) (by decide)).1 "boom" rfl (by decide)
  · exact (request_error_message_priority "http://b" "/x" HttpMethod.GET none
      (fun _ => ⟨500, "\x7b\"message\": \"msg\"\x7d"⟩) ⟨[], []⟩ 500
      "\x7b\"message\": \"msg\"\x7d" rfl (by decide) (by decide)).2.1
      (fun v hv => Option.noConfusion hv) "msg" rfl (by decide)
  · exact (request_error_message_priority "http://b" "/x" HttpMethod.GET none
      (fun _ => ⟨500, "plain text"⟩) ⟨[], []⟩ 500 "plain text" rfl (by decide)
      (by decide)).2.2.1 rfl (by decide)
  · exact (request_error_message_priority "http://b" "/x" HttpMethod.GET none
      (fun _ => ⟨404, ""⟩) ⟨[], []⟩ 404 "" rfl (by decide) (by decide)).2.2.2 rfl

/-- C8: for a non-401 response whose body text does not parse as JSON,
the raw text itself is kept as the parsed value and the call proceeds
normally — returned as the success value in the 2xx range and fed to the
message derivation otherwise — rather than any exception arising at the
parse step. -/
theorem request_parse_failure_degrades (baseUrl path : String) (method : HttpMethod)
    (body : Option Json) (tr : HttpRequest → HttpResponse) (s : SS) (st : Nat)
    (text : String)
    (hres : tr (outgoingRequest baseUrl path method (getToken s).1 body) = ⟨st, text⟩)
    (h401 : st ≠ 401) (hparse : jsonParse text = none) (hne : text ≠ "") :
    parseBody text = Json.str text ∧
    (statusOk st = true →
      request baseUrl path method body tr s = (Except.ok (Json.str text), (getToken s).2)) ∧
    (statusOk st = false →
      request baseUrl path method body tr s =
        (Except.error (ApiError.requestFailed (errMsg (Json.str text) st)),
         (getToken s).2)) := by
  have hpb : parseBody text = Json.str text := by simp [parseBody, hne, hparse]
  refine ⟨hpb, ?_, ?_⟩
  · intro hok
    rw [request_2xx_eq baseUrl path method body tr s st text hres hok, hpb]
  · intro hok
    rw [request_non2xx_eq baseUrl path method body tr s st text hres h401 hok, hpb]

/-- C8 witness: a malformed JSON body at a 200 and at a 500 response,
through the theorem itself. -/
theorem request_parse_failure_degrades_witness :
    request "http://b" "/x" HttpMethod.GET none (fun _ => ⟨200, "not json"⟩) ⟨[], []⟩ =
      (Except.ok (Json.str "not json"), ⟨[], []⟩) ∧
    request "http://b" "/x" HttpMethod.GET none (fun _ => ⟨500, "not json"⟩) ⟨[], []⟩ =
      (Except.error (ApiError.requestFailed (errMsg (Json.str "not json") 500)), ⟨[], []⟩) :=
  ⟨(request_parse_failure_degrades "http://b" "/x" HttpMethod.GET none
      (fun _ => ⟨200, "not json"⟩) ⟨[], []⟩ 200 "not json" rfl (by decide) rfl
      (by decide)).2.1 rfl,
   (request_parse_failure_degrades "http://b" "/x" HttpMethod.GET none
      (fun _ => ⟨500, "not json"⟩) ⟨[], []⟩ 500 "not json" rfl (by decide) rfl
      (by decide)).2.2 rfl⟩

/-- C4 counterexample: setAuth does not complete without raising under a
storage failure — with the token write succeeding and the user-id write
failing, the call rejects (the user-id write has no try/catch in the
source), refuting the claim for the setAuth operation. -/
theorem setAuth_raises_on_userid_write_failure :
    setAuth "tok" 7 ⟨[], [false, true]⟩ =
      (Except.error (), ⟨[(TOKEN_KEY, "tok")], []⟩) := rfl

/-- C4 amended: getToken, setToken, clearToken, getUserId and clearAuth
complete without raising under storage failures — reads degrade to an
absent credential and writes and deletes swallow the failure — and
clearAuth clears both keys, proceeding past a failed deletion of either
one, completing unchanged when nothing was ever stored; setAuth however
swallows only a token-write failure and propagates a user-id write
failure to its caller. -/
theorem tokenStore_failure_semantics (items : List (String × String))
    (rest : List Bool) (b : Bool) (t : String) (u : Int) :
    (getToken ⟨items, true :: rest⟩).1 = none ∧
    (setToken t ⟨items, true :: rest⟩).items = items ∧
    (clearToken ⟨items, true :: rest⟩).items = items ∧
    (getUserId ⟨items, true :: rest⟩).1 = none ∧
    (t ≠ "" → (setAuth t u ⟨items, b :: true :: rest⟩).1 = Except.error ()) ∧
    (t ≠ "" → (setAuth t u ⟨items, b :: false :: rest⟩).1 = Except.ok ()) ∧
    lookupKV USER_ID_KEY (clearAuth ⟨items, [true, false]⟩).items = none ∧
    lookupKV TOKEN_KEY (clearAuth ⟨items, [false, true]⟩).items = none ∧
    clearAuth ⟨[], []⟩ = ⟨[], []⟩ := by
  refine ⟨rfl, ?_, rfl, rfl, ?_, ?_, ?_, ?_, rfl⟩
  · by_cases ht : t = "" <;> simp [setToken, ssSet, popFault, ht]
  · intro ht
    cases b <;> simp [setAuth, setToken, ssSet, popFault, ht]
  · intro ht
    cases b <;> simp [setAuth, setToken, ssSet, popFault, ht]
  · simp [clearAuth, clearToken, ssDelete, popFault]
    exact lookupKV_removeKey USER_ID_KEY items
  · simp [clearAuth, clearToken, ssDelete, popFault]
    exact lookupKV_removeKey TOKEN_KEY items

/-- C4 amended witness: the failure-tolerance facts at a concrete store
and fault schedule, through the theorem itself. -/
theorem tokenStore_failure_semantics_witness :
    (getToken ⟨[(TOKEN_KEY, "abc")], [true]⟩).1 = none ∧
    (setAuth "tok" 7 ⟨[], [false, true]⟩).1 = Except.error () ∧
    (setAuth "tok" 7 ⟨[], [false, false]⟩).1 = Except.ok () ∧
    lookupKV USER_ID_KEY
      (clearAuth ⟨[(TOKEN_KEY, "a"), (USER_ID_KEY, "7")], [true, false]⟩).items = none ∧
    clearAuth ⟨[], []⟩ = ⟨[], []⟩ :=
  ⟨(tokenStore_failure_semantics [(TOKEN_KEY, "abc")] [] false "tok" 7).1,
   (tokenStore_failure_semantics [] [] false "tok" 7).2.2.2.2.1 (by decide),
   (tokenStore_failure_semantics [] [] false "tok" 7).2.2.2.2.2.1 (by decide),
   (tokenStore_failure_semantics [(TOKEN_KEY, "a"), (USER_ID_KEY, "7")] [] false
      "tok" 7).2.2.2.2.2.2.1,
   (tokenStore_failure_semantics [] [] false "tok" 7).2.2.2.2.2.2.2.2⟩

/-- Character-level form of joinComma. -/
def joinCommaCh : List (List Char) → List Char
  | [] => []
  | [x] => x
  | x :: y :: rest => x ++ ',' :: joinCommaCh (y :: rest)


theorem joinComma_data : ∀ ss : List String,
    (joinComma ss).data = joinCommaCh (ss.map String.data)
  | [] => rfl
  | [_] => rfl
  | x :: y :: rest => by
    show (x ++ "," ++ joinComma (y :: rest)).data = x.data ++ ',' :: joinCommaCh _
    rw [String.data_append, String.data_append, joinComma_data (y :: rest)]
    simp

theorem csvEscapeStr_data (s : String) : (csvEscapeStr s).data = escTok s.data := by
  show (csvEscape (some (Json.str s))).data = escTok s.data
  by_cases h : s.data.any isCsvSpecial = true
  · simp [csvEscape, Json.coerce, escTok, h]
  · simp [csvEscape, Json.coerce, escTok, h]

theorem isCsvSpecial_false_elim {c : Char} (h : isCsvSpecial c = false) :
    ¬c = '"' ∧ ¬c = ',' := by
  simp [isCsvSpecial] at h
  tauto

theorem all_not_special_of_any_false {f : List Char} (h : ¬f.any isCsvSpecial = true) :
    ∀ c ∈ f, isCsvSpecial c = false := by
  intro c hc
  exact Bool.eq_false_iff.mpr (fun hx => h (List.any_eq_true.mpr ⟨c, hc, hx⟩))

theorem csvGo_safe (f : List Char) :
    ∀ (cs cur : List Char), (∀ c ∈ f, isCsvSpecial c = false) →
      csvGo (f ++ cs) false cur = csvGo cs false (f.reverse ++ cur) := by
  induction f with
  | nil => intro cs cur _; simp
  | cons c f' ih =>
    intro cs cur h
    have hc := isCsvSpecial_false_elim (h c (List.mem_cons_self c f'))
    show csvGo (c :: (f' ++ cs)) false cur = _
    rw [csvGo, if_neg hc.1, if_neg hc.2,
      ih cs (c :: cur) (fun d hd => h d (List.mem_cons_of_mem c hd))]
    simp

theorem csvGo_quoted (f : List Char) :
    ∀ (cs cur : List Char), cs.head? ≠ some '"' →
      csvGo (doubleQuotes f ++ '"' :: cs) true cur = csvGo cs false (f.reverse ++ cur) := by
  induction f with
  | nil =>
    intro cs cur hq
    show csvGo ('"' :: cs) true cur = _
    cases cs with
    | nil => rfl
    | cons d cs' =>
      have hd : ¬d = '"' := by
        intro hdq
        exact hq (by rw [hdq]; rfl)
      rw [csvGo, if_pos rfl]
      simp only [if_neg hd, List.reverse_nil, List.nil_append]
  | cons c f' ih =>
    intro cs cur hq
    by_cases hc : c = '"'
    · subst hc
      show csvGo ('"' :: '"' :: (doubleQuotes f' ++ '"' :: cs)) true cur = _
      have hstep : csvGo ('"' :: '"' :: (doubleQuotes f' ++ '"' :: cs)) true cur =
          csvGo (doubleQuotes f' ++ '"' :: cs) true ('"' :: cur) := rfl
      rw [hstep, ih cs ('"' :: cur) hq]
      simp
    · show csvGo ((if c = '"' then ['"', '"'] else [c]) ++ doubleQuotes f' ++ '"' :: cs)
        true cur = _
      rw [if_neg hc]
      show csvGo (c :: (doubleQuotes f' ++ '"' :: cs)) true cur = _
      rw [csvGo.eq_def]
      simp only [hc, if_false]
      rw [ih cs (c :: cur) hq]
      simp

theorem csvGo_cells : ∀ cells : List (List Char), cells ≠ [] →
    csvGo (joinCommaCh (cells.map escTok)) false [] = cells := by
  intro cells
  induction cells with
  | nil => intro h; exact absurd rfl h
  | cons f rest ih =>
    intro _
    cases rest with
    | nil =>
      show csvGo (escTok f) false [] = [f]
      by_cases h : f.any isCsvSpecial = true
      · rw [show escTok f = '"' :: (doubleQuotes f ++ '"' :: []) by simp [escTok, h]]
        have hstep : csvGo ('"' :: (doubleQuotes f ++ '"' :: [])) false [] =
            csvGo (doubleQuotes f ++ '"' :: []) true [] := rfl
        rw [hstep, csvGo_quoted f [] [] (by simp)]
        simp [csvGo]
      · rw [show escTok f = f by simp [escTok, h]]
        have h2 := csvGo_safe f [] [] (all_not_special_of_any_false h)
        simp only [List.append_nil] at h2
        rw [h2]
        simp [csvGo]
    | cons g rest' =>
      show csvGo (escTok f ++ ',' :: joinCommaCh ((g :: rest').map escTok)) false [] =
        f :: (g :: rest')
      by_cases h : f.any isCsvSpecial = true
      · rw [show escTok f = '"' :: (doubleQuotes f ++ '"' :: []) by simp [escTok, h]]
        have hassoc : ('"' :: (doubleQuotes f ++ '"' :: [])) ++
            ',' :: joinCommaCh ((g :: rest').map escTok) =
            '"' :: (doubleQuotes f ++ '"' :: ',' :: joinCommaCh ((g :: rest').map escTok)) := by
          simp
        rw [hassoc]
        have hstep : csvGo ('"' :: (doubleQuotes f ++ '"' :: ',' ::
            joinCommaCh ((g :: rest').map escTok))) false [] =
            csvGo (doubleQuotes f ++ '"' :: ',' ::
              joinCommaCh ((g :: rest').map escTok)) true [] := rfl
        rw [hstep,
          csvGo_quoted f (',' :: joinCommaCh ((g :: rest').map escTok)) [] (by simp)]
        have hcomma : csvGo (',' :: joinCommaCh ((g :: rest').map escTok)) false
            (f.reverse ++ []) =
            (f.reverse ++ []).reverse :: csvGo (joinCommaCh ((g :: rest').map escTok))
              false [] := rfl
        rw [hcomma, ih (by simp)]
        simp
      · rw [show escTok f = f by simp [escTok, h]]
        rw [csvGo_safe f (',' :: joinCommaCh ((g :: rest').map escTok)) []
          (all_not_special_of_any_false h)]
        have hcomma : csvGo (',' :: joinCommaCh ((g :: rest').map escTok)) false
            (f.reverse ++ []) =
            (f.reverse ++ []).reverse :: csvGo (joinCommaCh ((g :: rest').map escTok))
              false [] := rfl
        rw [hcomma, ih (by simp)]
        simp

/-- C10: csvEscape leaves a cell whose string form has no quote, comma or
line break unchanged, wraps any other cell in double quotes with internal
quotes doubled, sends null and undefined to the empty string, and a CSV
row built from escaped cells joined by commas round-trips: the claim-side
reader recovers every field exactly. -/
theorem csvEscape_correct (j : Json) (fields : List String) :
    (j ≠ Json.null → j.coerce.data.any isCsvSpecial = false →
      csvEscape (some j) = j.coerce) ∧
    (j ≠ Json.null → j.coerce.data.any isCsvSpecial = true →
      csvEscape (some j) = String.mk ('"' :: doubleQuotes j.coerce.data ++ ['"'])) ∧
    (csvEscape none = "" ∧ csvEscape (some Json.null) = "") ∧
    (fields ≠ [] → splitCsvLine (joinComma (fields.map csvEscapeStr)) = fields) := by
  refine ⟨?_, ?_, ⟨rfl, rfl⟩, ?_⟩
  · intro hnull h
    cases j <;> simp_all [csvEscape]
  · intro hnull h
    cases j <;> simp_all [csvEscape]
  · intro hne
    show (csvGo (joinComma (fields.map csvEscapeStr)).data false []).map
      (fun cs => String.mk cs) = fields
    rw [joinComma_data, List.map_map]
    have hmap : (fields.map (String.data ∘ csvEscapeStr)) =
        (fields.map String.data).map escTok := by
      rw [List.map_map]
      exact List.map_congr_left (fun s _ => csvEscapeStr_data s)
    rw [hmap, csvGo_cells (fields.map String.data) (by simpa using hne)]
    rw [List.map_map]
    have hid : (fun cs => String.mk cs) ∘ String.data = id := by
      funext x
      rfl
    rw [hid, List.map_id]

/-- C10 witness: concrete cells of each kind and a concrete round-tripped
row, through the theorem itself. -/
theorem csvEscape_correct_witness :
    csvEscape (some (Json.str "plain")) = "plain" ∧
    csvEscape (some (Json.str "a,b\"c")) =
      String.mk ('"' :: doubleQuotes ("a,b\"c").data ++ ['"']) ∧
    csvEscape none = "" ∧
    splitCsvLine (joinComma (["a", "b,c", "d\"e"].map csvEscapeStr)) = ["a", "b,c", "d\"e"] :=
  ⟨(csvEscape_correct (Json.str "plain") []).1 (by intro h; cases h) (by decide),
   (csvEscape_correct (Json.str "a,b\"c") []).2.1 (by intro h; cases h) (by decide),
   (csvEscape_correct (Json.str "") []).2.2.1.1,
   (csvEscape_correct (Json.str "") ["a", "b,c", "d\"e"]).2.2.2 (by decide)⟩
